import Mathlib

/-!
# Response builder of `pkg/xresponse` (std_response_restapi.go)

A shallow embedding of the fluent REST response builder `restResponseSTD[D, E]`:
its constructors, getters, setters and the terminal operations `Done`, `JSON`
and `JSONText`, together with the theorems that settle the properties stated
for it.

Modelling conventions.

* A Go method with pointer receiver `r *restResponseSTD[D, E]` becomes a function
  from the receiver's value to its value after the call, paired with the
  effects the call performed (`Event`s, in the order they happen).
* The receiver is an address (`Ptr`) of a heap; the namespace `Ref` lifts every
  method to addresses, which is where `return r` and the argument `r` of
  `go r.interceptHandler.Handler(r.request, r)` are visible.
* Go `int` is `Int` (no arithmetic is performed on status codes).
* A failed type assertion `x.(T)` panics; a function that may panic returns
  `Option`, with `none` for the panic.
* `sync.Once` is its `done` flag.
-/

namespace xresponse

/-! ## Values from outside the package -/

/-- Modelled from the spec: the named type `restkey.RestKey` of recognised result
codes (package `constant/restkey` is not among the sources). -/
structure restkey.RestKey where
  name : String
  deriving DecidableEq, Repr

/-- Modelled from the spec: the `UNKNOWN` sentinel of package `restkey`, which is
not among the sources. -/
def restkey.UNKNOWN : restkey.RestKey := ⟨"UNKNOWN"⟩

/-- A Go interface value (`any`): `nil`, or a value together with its dynamic
type. `other` stands for every dynamic type not listed. -/
inductive GoAny where
  | nil
  | restKey (k : restkey.RestKey)
  | string (s : String)
  | int (n : Int)
  | other (typeName : String) (repr : String)
  deriving DecidableEq, Repr

/-- Modelled from the spec: the context keys of package `ctxkey` (not among the
sources); `RequestIDKey` is the key under which upstream middleware stores the
request/trace identifier. -/
inductive ctxkey.Key where
  | RequestIDKey
  | other (n : Nat)
  deriving DecidableEq, Repr

/-- The part of `*http.Request` the package reads: `r.Context().Value(key)`,
which is `nil` for a key that was never stored. -/
structure http.Request where
  contextValue : ctxkey.Key → GoAny

/-- An `http.ResponseWriter`, identified by a number. -/
structure http.ResponseWriter where
  id : Nat
  deriving DecidableEq, Repr

/-- The multi-value map `http.Header` (`map[string][]string`): `none` for a key
that is not in the map. The zero value is the map without keys. -/
abbrev http.Header := String → Option (List String)

/-- The constant `http.StatusOK`. -/
def http.StatusOK : Int := 200

/-- The flag of a `sync.Once`: `true` once `Do` has run its function. -/
structure sync.Once where
  done : Bool
  deriving DecidableEq, Repr

/-- An implementation of the interface `InterceptHandler[D, E]`, identified by a
number. -/
structure InterceptHandler where
  id : Nat
  deriving DecidableEq, Repr

/-- Addresses of builders on the heap. -/
abbrev Ptr := Nat

/-! ## The embedded struct `ResponseSTD` -/

/-- Modelled from the spec: the struct `ResponseSTD[D, E]` embedded in
`restResponseSTD`; its declaration is not among the sources. The fields are
those the sources read and write, with the types of the spec's data model. -/
structure ResponseSTD (D E : Type) where
  interceptOnceFn : sync.Once
  interceptHandler : Option InterceptHandler
  responseWriter : Option http.ResponseWriter
  request : Option http.Request
  responseHeader : http.Header
  statusCode : Int
  Msg : String
  Code : GoAny
  Data : D
  Err : E
  TraceID : String

/-- What a builder does to the outside world. -/
inductive Event (D E : Type) where
  /-- The transport write `ResponseSTD.RestJSON`, with the state it serialises. -/
  | RestJSON (res : ResponseSTD D E)
  /-- The statement `go r.interceptHandler.Handler(r.request, r)`: the handler, the request and
  the address handed over as `RestResponseValue`. -/
  | goHandler (h : InterceptHandler) (req : Option http.Request) (res : Ptr)

/-- Whether the event is a transport write. -/
def Event.isWrite {D E : Type} : Event D E → Bool
  | .RestJSON _ => true
  | .goHandler _ _ _ => false

/-- Whether the event is an invocation of the interceptor. -/
def Event.isIntercept {D E : Type} : Event D E → Bool
  | .RestJSON _ => false
  | .goHandler _ _ _ => true

/-- Modelled from the spec: `ResponseSTD.SetMsg`, absent from the sources; the setter
stores the message. -/
def ResponseSTD.SetMsg {D E : Type} (s : ResponseSTD D E) (msg : String) : ResponseSTD D E :=
  { s with Msg := msg }

/-- Modelled from the spec: `ResponseSTD.SetCode`, absent from the sources; the setter
stores the raw code value. -/
def ResponseSTD.SetCode {D E : Type} (s : ResponseSTD D E) (code : GoAny) : ResponseSTD D E :=
  { s with Code := code }

/-- Modelled from the spec: `ResponseSTD.SetData`, absent from the sources; the setter
stores the success payload. -/
def ResponseSTD.SetData {D E : Type} (s : ResponseSTD D E) (data : D) : ResponseSTD D E :=
  { s with Data := data }

/-- Modelled from the spec: `ResponseSTD.SetError`, absent from the sources; the setter
stores the error payload. -/
def ResponseSTD.SetError {D E : Type} (s : ResponseSTD D E) (err : E) : ResponseSTD D E :=
  { s with Err := err }

/-- Modelled from the spec: `ResponseSTD.SetStatusCode`, absent from the sources; the
setter stores the status, without validation. -/
def ResponseSTD.SetStatusCode {D E : Type} (s : ResponseSTD D E) (code : Int) :
    ResponseSTD D E :=
  { s with statusCode := code }

/-- The function `validHeaderFieldByte` of the standard package net/textproto: the
token characters of a header field name, that is the digits, the ASCII letters
and the fifteen punctuation marks of RFC 7230 (given by their codes). -/
def textproto.validHeaderFieldByte (c : Char) : Bool :=
  (48 ≤ c.toNat && c.toNat ≤ 57) || (65 ≤ c.toNat && c.toNat ≤ 90) ||
    (97 ≤ c.toNat && c.toNat ≤ 122) ||
    [33, 35, 36, 37, 38, 39, 42, 43, 45, 46, 94, 95, 96, 124, 126].contains c.toNat

/-- The loop of `canonicalMIMEHeaderKey` in net/textproto: a lower-case letter is
raised where `upper` holds, an upper-case letter is lowered where it does not,
and `upper` holds at the start and after each hyphen (code 45). -/
def textproto.canonicalLoop : Bool → List Char → List Char
  | _, [] => []
  | upper, c :: cs =>
    let c1 :=
      if upper && (97 ≤ c.toNat && c.toNat ≤ 122) then Char.ofNat (c.toNat - 32)
      else if !upper && (65 ≤ c.toNat && c.toNat ≤ 90) then Char.ofNat (c.toNat + 32)
      else c
    c1 :: textproto.canonicalLoop (c1.toNat == 45) cs

/-- The function `textproto.CanonicalMIMEHeaderKey` of the standard library: a key
with a space or another byte that is not a token character is returned as it is;
any other key gets its first letter and every letter after a hyphen in upper
case and the other letters in lower case. -/
def textproto.CanonicalMIMEHeaderKey (s : String) : String :=
  if s.data.all textproto.validHeaderFieldByte then
    String.mk (textproto.canonicalLoop true s.data)
  else s

/-- The method `Header.Add` of net/http, which the doc comment of `AddHeader` gives as
its equal: the key is canonicalised and the value is appended to those stored
under the canonical key. -/
def http.Header.Add (h : http.Header) (key value : String) : http.Header :=
  fun k =>
    if k = textproto.CanonicalMIMEHeaderKey key then
      some ((h (textproto.CanonicalMIMEHeaderKey key)).getD [] ++ [value])
    else h k

/-- The method `Header.Del` of net/http, which the doc comment of `DelHeader` gives as
its equal: the canonical key is removed with all its values. -/
def http.Header.Del (h : http.Header) (key : String) : http.Header :=
  fun k => if k = textproto.CanonicalMIMEHeaderKey key then none else h k

/-- Modelled from the spec: `ResponseSTD.SetHeader`, absent from the sources; add-by-key
on the header map of the builder, as the doc comment of `AddHeader` has it
(`Header().Add(key, value)`). -/
def ResponseSTD.SetHeader {D E : Type} (s : ResponseSTD D E) (key value : String) :
    ResponseSTD D E :=
  { s with responseHeader := s.responseHeader.Add key value }

/-- Modelled from the spec: `ResponseSTD.DelHeader`, absent from the sources;
delete-by-key on the header map of the builder, as the doc comment of `DelHeader`
has it (`Header().Del(key)`). -/
def ResponseSTD.DelHeader {D E : Type} (s : ResponseSTD D E) (key : String) :
    ResponseSTD D E :=
  { s with responseHeader := s.responseHeader.Del key }

/-- Modelled from the spec: `ResponseSTD.RestJSON`, absent from the sources; it writes
headers, status line and body to the transport and leaves the builder as it is. -/
def ResponseSTD.RestJSON {D E : Type} (s : ResponseSTD D E) :
    ResponseSTD D E × List (Event D E) :=
  (s, [Event.RestJSON s])

/-- Modelled from the spec: `ResponseSTD.JSONText`, absent from the sources; it
serialises the response with the encoder `marshal` (the standard JSON encoder for
`D` and `E`) and has no other effect. The result is the text or the encoding
error, and the receiver after the call. -/
def ResponseSTD.JSONText {D E : Type} (marshal : ResponseSTD D E → Except String String)
    (s : ResponseSTD D E) : Except String String × ResponseSTD D E :=
  (marshal s, s)

/-- The method `(*sync.Once).Do`: the function runs if no call of `Do` ran one
before, and the flag is set. -/
def sync.Once.Do {σ ε : Type} (o : sync.Once) (f : σ → σ × List ε) (s : σ) :
    sync.Once × σ × List ε :=
  if o.done then (o, s, []) else (⟨true⟩, (f s).1, (f s).2)

/-! ## The builder `restResponseSTD` -/

/-- The struct `restResponseSTD[D, E]`. -/
structure restResponseSTD (D E : Type) where
  onceFn : sync.Once
  ResponseSTD : ResponseSTD D E

/-- The constructor `NewRestResponse`; `none` when the type assertion `.(string)` panics. -/
def NewRestResponse {D E : Type} [Inhabited D] [Inhabited E] (r : http.Request)
    (rw : http.ResponseWriter) : Option (restResponseSTD D E) :=
  match r.contextValue ctxkey.Key.RequestIDKey with
  | GoAny.string traceID =>
    some {
      onceFn := ⟨false⟩
      ResponseSTD := {
        interceptOnceFn := ⟨false⟩
        interceptHandler := none
        responseWriter := some rw
        request := some r
        responseHeader := fun _ => none
        statusCode := 0
        Msg := ""
        Code := GoAny.nil
        Data := default
        Err := default
        TraceID := traceID } }
  | _ => none

/-- The constructor `NewRestResponseWithInterceptor`; `none` when the type assertion
`.(string)` panics. A nil `handler` is `none`. -/
def NewRestResponseWithInterceptor {D E : Type} [Inhabited D] [Inhabited E]
    (r : http.Request) (rw : http.ResponseWriter) (handler : Option InterceptHandler) :
    Option (restResponseSTD D E) :=
  match r.contextValue ctxkey.Key.RequestIDKey with
  | GoAny.string traceID =>
    some {
      onceFn := ⟨false⟩
      ResponseSTD := {
        interceptOnceFn := ⟨false⟩
        interceptHandler := handler
        responseWriter := some rw
        request := some r
        responseHeader := fun _ => none
        statusCode := 0
        Msg := ""
        Code := GoAny.nil
        Data := default
        Err := default
        TraceID := traceID } }
  | _ => none

/-! ### Getters -/

/-- The getter `GetMsg`. -/
def restResponseSTD.GetMsg {D E : Type} (r : restResponseSTD D E) : String :=
  r.ResponseSTD.Msg

/-- The getter `GetCode`: the type assertion `.(restkey.RestKey)` with the fallback. -/
def restResponseSTD.GetCode {D E : Type} (r : restResponseSTD D E) : restkey.RestKey :=
  match r.ResponseSTD.Code with
  | GoAny.restKey code => code
  | _ => restkey.UNKNOWN

/-- The getter `GetAnyCode`. -/
def restResponseSTD.GetAnyCode {D E : Type} (r : restResponseSTD D E) : GoAny :=
  r.ResponseSTD.Code

/-- The getter `GetData`. -/
def restResponseSTD.GetData {D E : Type} (r : restResponseSTD D E) : D :=
  r.ResponseSTD.Data

/-- The getter `GetError`. -/
def restResponseSTD.GetError {D E : Type} (r : restResponseSTD D E) : E :=
  r.ResponseSTD.Err

/-- The getter `GetStatusCode`. -/
def restResponseSTD.GetStatusCode {D E : Type} (r : restResponseSTD D E) : Int :=
  r.ResponseSTD.statusCode

/-- The getter `GetResponseHeader`. -/
def restResponseSTD.GetResponseHeader {D E : Type} (r : restResponseSTD D E) : http.Header :=
  r.ResponseSTD.responseHeader

/-! ### Setters -/

/-- The setter `Msg`. -/
def restResponseSTD.Msg {D E : Type} (r : restResponseSTD D E) (msg : String) :
    restResponseSTD D E :=
  { r with ResponseSTD := r.ResponseSTD.SetMsg msg }

/-- The setter `Code`: the key is stored as an interface value of dynamic type
`restkey.RestKey`. -/
def restResponseSTD.Code {D E : Type} (r : restResponseSTD D E) (code : restkey.RestKey) :
    restResponseSTD D E :=
  { r with ResponseSTD := r.ResponseSTD.SetCode (GoAny.restKey code) }

/-- The setter `AnyCode`. -/
def restResponseSTD.AnyCode {D E : Type} (r : restResponseSTD D E) (code : GoAny) :
    restResponseSTD D E :=
  { r with ResponseSTD := r.ResponseSTD.SetCode code }

/-- The setter `Data`. -/
def restResponseSTD.Data {D E : Type} (r : restResponseSTD D E) (data : D) :
    restResponseSTD D E :=
  { r with ResponseSTD := r.ResponseSTD.SetData data }

/-- The setter `Error`. -/
def restResponseSTD.Error {D E : Type} (r : restResponseSTD D E) (err : E) :
    restResponseSTD D E :=
  { r with ResponseSTD := r.ResponseSTD.SetError err }

/-- The setter `StatusCode`. -/
def restResponseSTD.StatusCode {D E : Type} (r : restResponseSTD D E) (code : Int) :
    restResponseSTD D E :=
  { r with ResponseSTD := r.ResponseSTD.SetStatusCode code }

/-- The setter `AddHeader`. -/
def restResponseSTD.AddHeader {D E : Type} (r : restResponseSTD D E) (key value : String) :
    restResponseSTD D E :=
  { r with ResponseSTD := r.ResponseSTD.SetHeader key value }

/-- The setter `DelHeader`. -/
def restResponseSTD.DelHeader {D E : Type} (r : restResponseSTD D E) (key : String) :
    restResponseSTD D E :=
  { r with ResponseSTD := r.ResponseSTD.DelHeader key }

/-! ### Terminal operations -/

/-- The first statement of `Done` and `JSON`: a status of 0 becomes `http.StatusOK`. -/
def restResponseSTD.defaultStatus {D E : Type} (r : restResponseSTD D E) :
    restResponseSTD D E :=
  if r.ResponseSTD.statusCode = 0 then
    { r with ResponseSTD := { r.ResponseSTD with statusCode := http.StatusOK } }
  else r

/-- The function given to `interceptOnceFn.Do`: nothing without a handler, else the
handler is started with the request and the receiver `self`. -/
def restResponseSTD.interceptBody {D E : Type} (self : Ptr) (r : restResponseSTD D E) :
    restResponseSTD D E × List (Event D E) :=
  match r.ResponseSTD.interceptHandler with
  | none => (r, [])
  | some h => (r, [Event.goHandler h r.ResponseSTD.request self])

/-- The deferred function of `Done` and `JSON`: `r.interceptOnceFn.Do(func() ...)`. -/
def restResponseSTD.deferred {D E : Type} (self : Ptr) (r : restResponseSTD D E) :
    restResponseSTD D E × List (Event D E) :=
  let res := r.ResponseSTD.interceptOnceFn.Do (restResponseSTD.interceptBody self) r
  ({ res.2.1 with ResponseSTD := { res.2.1.ResponseSTD with interceptOnceFn := res.1 } }, res.2.2)

/-- The terminal operation `Done`, on the receiver at address `self`. -/
def restResponseSTD.Done {D E : Type} (self : Ptr) (r : restResponseSTD D E) :
    restResponseSTD D E × List (Event D E) :=
  restResponseSTD.deferred self r.defaultStatus

/-- The terminal operation `JSON`, on the receiver at address `self`: the default
status, `r.onceFn.Do(r.ResponseSTD.RestJSON)`, then the deferred function. -/
def restResponseSTD.JSON {D E : Type} (self : Ptr) (r : restResponseSTD D E) :
    restResponseSTD D E × List (Event D E) :=
  let r1 := r.defaultStatus
  let w := r1.onceFn.Do ResponseSTD.RestJSON r1.ResponseSTD
  let r2 : restResponseSTD D E := { onceFn := w.1, ResponseSTD := w.2.1 }
  let d := restResponseSTD.deferred self r2
  (d.1, w.2.2 ++ d.2)

/-- The operation `JSONText`: the result of `ResponseSTD.JSONText` and the receiver
after the call. -/
def restResponseSTD.JSONText {D E : Type}
    (marshal : xresponse.ResponseSTD D E → Except String String)
    (r : restResponseSTD D E) : Except String String × restResponseSTD D E :=
  let res := r.ResponseSTD.JSONText marshal
  (res.1, { r with ResponseSTD := res.2 })

/-! ## Call sequences -/

/-- A call of a setter or of a terminal operation on a builder. -/
inductive Call (D E : Type) where
  | Msg (msg : String)
  | Code (code : restkey.RestKey)
  | AnyCode (code : GoAny)
  | Data (data : D)
  | Error (err : E)
  | StatusCode (code : Int)
  | AddHeader (key value : String)
  | DelHeader (key : String)
  | Done
  | JSON

/-- Whether the call is one of the eight setters. -/
def Call.isSetter {D E : Type} : Call D E → Bool
  | .Done => false
  | .JSON => false
  | _ => true

/-- Whether the call is a terminal operation (`Done` or `JSON`). -/
def Call.isTerminal {D E : Type} : Call D E → Bool
  | .Done => true
  | .JSON => true
  | _ => false

/-- Whether the call is `JSON`. -/
def Call.isJSON {D E : Type} : Call D E → Bool
  | .JSON => true
  | _ => false

/-- The argument of a `Msg` call. -/
def Call.msgArg {D E : Type} : Call D E → Option String
  | .Msg msg => some msg
  | _ => none

/-- The value a `Code` or `AnyCode` call stores. -/
def Call.codeArg {D E : Type} : Call D E → Option GoAny
  | .Code code => some (GoAny.restKey code)
  | .AnyCode code => some code
  | _ => none

/-- The argument of a `Data` call. -/
def Call.dataArg {D E : Type} : Call D E → Option D
  | .Data data => some data
  | _ => none

/-- The argument of an `Error` call. -/
def Call.errorArg {D E : Type} : Call D E → Option E
  | .Error err => some err
  | _ => none

/-- The argument of a `StatusCode` call. -/
def Call.statusCodeArg {D E : Type} : Call D E → Option Int
  | .StatusCode code => some code
  | _ => none

/-- The argument of the most recent call selected by `pick`, `none` when the
sequence has no such call. -/
def lastArg {D E α : Type} (pick : Call D E → Option α) : List (Call D E) → Option α
  | [] => none
  | c :: cs =>
    match lastArg pick cs with
    | some a => some a
    | none => pick c

/-- One call on the receiver at address `self`: the receiver after the call and
the events of the call. -/
def restResponseSTD.call {D E : Type} (self : Ptr) (r : restResponseSTD D E) :
    Call D E → restResponseSTD D E × List (Event D E)
  | .Msg msg => (r.Msg msg, [])
  | .Code code => (r.Code code, [])
  | .AnyCode code => (r.AnyCode code, [])
  | .Data data => (r.Data data, [])
  | .Error err => (r.Error err, [])
  | .StatusCode code => (r.StatusCode code, [])
  | .AddHeader key value => (r.AddHeader key value, [])
  | .DelHeader key => (r.DelHeader key, [])
  | .Done => r.Done self
  | .JSON => r.JSON self

/-- A sequence of calls, one after another, on the receiver at address `self`. -/
def restResponseSTD.calls {D E : Type} (self : Ptr) (r : restResponseSTD D E) :
    List (Call D E) → restResponseSTD D E × List (Event D E)
  | [] => (r, [])
  | c :: cs =>
    ((restResponseSTD.calls self (r.call self c).1 cs).1,
      (r.call self c).2 ++ (restResponseSTD.calls self (r.call self c).1 cs).2)

/-- The status the first property test expects after the setters `cs` and `JSON`:
the last `StatusCode` value set, or 200 if never set. -/
def claimedStatus {D E : Type} (cs : List (Call D E)) : Int :=
  (lastArg Call.statusCodeArg cs).getD 200

/-- The status `JSON` commits after the setters `cs` on a new builder: the last
`StatusCode` value unless it is 0, else 200. -/
def committedStatus {D E : Type} (cs : List (Call D E)) : Int :=
  match lastArg Call.statusCodeArg cs with
  | some code => if code = 0 then 200 else code
  | none => 200

/-! ## Builders behind addresses -/

/-- The heap of builders and the events so far. -/
structure World (D E : Type) where
  heap : Ptr → Option (restResponseSTD D E)
  trace : List (Event D E)

/-- A method body run on the builder at address `p`; `none` for a nil dereference. -/
def World.exec {D E : Type} (w : World D E) (p : Ptr)
    (body : restResponseSTD D E → restResponseSTD D E × List (Event D E)) :
    Option (World D E) :=
  match w.heap p with
  | none => none
  | some r =>
    some { heap := Function.update w.heap p (some (body r).1), trace := w.trace ++ (body r).2 }

namespace Ref

/-- The method `Msg` on the receiver `r`, with the returned `r`. -/
def Msg {D E : Type} (r : Ptr) (msg : String) (w : World D E) : Option (Ptr × World D E) :=
  (w.exec r (fun s => (s.Msg msg, []))).map (fun w1 => (r, w1))

/-- The method `Code` on the receiver `r`, with the returned `r`. -/
def Code {D E : Type} (r : Ptr) (code : restkey.RestKey) (w : World D E) :
    Option (Ptr × World D E) :=
  (w.exec r (fun s => (s.Code code, []))).map (fun w1 => (r, w1))

/-- The method `AnyCode` on the receiver `r`, with the returned `r`. -/
def AnyCode {D E : Type} (r : Ptr) (code : GoAny) (w : World D E) : Option (Ptr × World D E) :=
  (w.exec r (fun s => (s.AnyCode code, []))).map (fun w1 => (r, w1))

/-- The method `Data` on the receiver `r`, with the returned `r`. -/
def Data {D E : Type} (r : Ptr) (data : D) (w : World D E) : Option (Ptr × World D E) :=
  (w.exec r (fun s => (s.Data data, []))).map (fun w1 => (r, w1))

/-- The method `Error` on the receiver `r`, with the returned `r`. -/
def Error {D E : Type} (r : Ptr) (err : E) (w : World D E) : Option (Ptr × World D E) :=
  (w.exec r (fun s => (s.Error err, []))).map (fun w1 => (r, w1))

/-- The method `StatusCode` on the receiver `r`, with the returned `r`. -/
def StatusCode {D E : Type} (r : Ptr) (code : Int) (w : World D E) : Option (Ptr × World D E) :=
  (w.exec r (fun s => (s.StatusCode code, []))).map (fun w1 => (r, w1))

/-- The method `AddHeader` on the receiver `r`, with the returned `r`. -/
def AddHeader {D E : Type} (r : Ptr) (key value : String) (w : World D E) :
    Option (Ptr × World D E) :=
  (w.exec r (fun s => (s.AddHeader key value, []))).map (fun w1 => (r, w1))

/-- The method `DelHeader` on the receiver `r`, with the returned `r`. -/
def DelHeader {D E : Type} (r : Ptr) (key : String) (w : World D E) : Option (Ptr × World D E) :=
  (w.exec r (fun s => (s.DelHeader key, []))).map (fun w1 => (r, w1))

/-- The method `Done` on the receiver `r`. -/
def Done {D E : Type} (r : Ptr) (w : World D E) : Option (World D E) :=
  w.exec r (restResponseSTD.Done r)

/-- The method `JSON` on the receiver `r`. -/
def JSON {D E : Type} (r : Ptr) (w : World D E) : Option (World D E) :=
  w.exec r (restResponseSTD.JSON r)

/-- A call on the receiver `r`: the returned builder of a setter (`none` for a
terminal operation, which returns nothing) and the world after the call. -/
def call {D E : Type} (r : Ptr) (w : World D E) : Call D E → Option (Option Ptr × World D E)
  | .Msg msg => (Msg r msg w).map (fun x => (some x.1, x.2))
  | .Code code => (Code r code w).map (fun x => (some x.1, x.2))
  | .AnyCode code => (AnyCode r code w).map (fun x => (some x.1, x.2))
  | .Data data => (Data r data w).map (fun x => (some x.1, x.2))
  | .Error err => (Error r err w).map (fun x => (some x.1, x.2))
  | .StatusCode code => (StatusCode r code w).map (fun x => (some x.1, x.2))
  | .AddHeader key value => (AddHeader r key value w).map (fun x => (some x.1, x.2))
  | .DelHeader key => (DelHeader r key w).map (fun x => (some x.1, x.2))
  | .Done => (Done r w).map (fun w1 => (none, w1))
  | .JSON => (JSON r w).map (fun w1 => (none, w1))

/-- A sequence of calls on the receiver `r`, one after another. -/
def calls {D E : Type} (r : Ptr) : World D E → List (Call D E) → Option (World D E)
  | w, [] => some w
  | w, c :: cs =>
    match call r w c with
    | none => none
    | some x => calls r x.2 cs

/-- The getter `GetMsg` through the view `res` an interceptor holds, read in world `w`. -/
def GetMsg {D E : Type} (res : Ptr) (w : World D E) : Option String :=
  (w.heap res).map restResponseSTD.GetMsg

/-- The getter `GetCode` through the view `res`, read in world `w`. -/
def GetCode {D E : Type} (res : Ptr) (w : World D E) : Option restkey.RestKey :=
  (w.heap res).map restResponseSTD.GetCode

/-- The getter `GetAnyCode` through the view `res`, read in world `w`. -/
def GetAnyCode {D E : Type} (res : Ptr) (w : World D E) : Option GoAny :=
  (w.heap res).map restResponseSTD.GetAnyCode

/-- The getter `GetData` through the view `res`, read in world `w`. -/
def GetData {D E : Type} (res : Ptr) (w : World D E) : Option D :=
  (w.heap res).map restResponseSTD.GetData

/-- The getter `GetError` through the view `res`, read in world `w`. -/
def GetError {D E : Type} (res : Ptr) (w : World D E) : Option E :=
  (w.heap res).map restResponseSTD.GetError

/-- The getter `GetStatusCode` through the view `res`, read in world `w`. -/
def GetStatusCode {D E : Type} (res : Ptr) (w : World D E) : Option Int :=
  (w.heap res).map restResponseSTD.GetStatusCode

end Ref

/-! ## Concrete inputs -/

/-- A request whose context carries the identifier `id` under `RequestIDKey`. -/
def requestWithID (id : GoAny) : http.Request :=
  ⟨fun k => if k = ctxkey.Key.RequestIDKey then id else GoAny.nil⟩

/-- A builder with unset fields, both latches unspent and the given handler. -/
def blank (handler : Option InterceptHandler) : restResponseSTD Nat Nat :=
  { onceFn := ⟨false⟩
    ResponseSTD := {
      interceptOnceFn := ⟨false⟩
      interceptHandler := handler
      responseWriter := some ⟨0⟩
      request := some (requestWithID (GoAny.string "req-1"))
      responseHeader := fun _ => none
      statusCode := 0
      Msg := ""
      Code := GoAny.nil
      Data := 0
      Err := 0
      TraceID := "req-1" } }


/-! ## Auxiliary definitions for the statements -/

/-- The status after the first statement of a terminal operation. -/
def defaulted (code : Int) : Int := if code = 0 then http.StatusOK else code

/-- The events the deferred function of a terminal operation produces. -/
def interceptEvents {D E : Type} (self : Ptr) (r : restResponseSTD D E) : List (Event D E) :=
  if r.ResponseSTD.interceptOnceFn.done then []
  else
    match r.ResponseSTD.interceptHandler with
    | none => []
    | some h => [Event.goHandler h r.ResponseSTD.request self]

/-- The events of the write step of `JSON`. -/
def writeEvents {D E : Type} (r : restResponseSTD D E) : List (Event D E) :=
  if r.onceFn.done then []
  else [Event.RestJSON { r.ResponseSTD with statusCode := defaulted r.ResponseSTD.statusCode }]

/-- The status codes of the transport writes among the events, in order. -/
def writtenStatus {D E : Type} (evs : List (Event D E)) : List Int :=
  evs.filterMap fun
    | .RestJSON res => some res.statusCode
    | .goHandler _ _ _ => none

/-- The views handed to interceptors among the events, in order. -/
def handedViews {D E : Type} (evs : List (Event D E)) : List Ptr :=
  evs.filterMap fun
    | .RestJSON _ => none
    | .goHandler _ _ res => some res

/-- Whether some invocation of the interceptor comes before some transport write. -/
def interceptPrecedesWrite {D E : Type} : List (Event D E) → Bool
  | [] => false
  | e :: es => (e.isIntercept && es.any Event.isWrite) || interceptPrecedesWrite es

/-- The narrowed view of a raw code value: the key when the value is a
`restkey.RestKey`, the `UNKNOWN` sentinel otherwise. -/
def narrowed : GoAny → restkey.RestKey
  | GoAny.restKey k => k
  | _ => restkey.UNKNOWN

/-- The string stored under a context key, if the stored value is a string. -/
def storedString : GoAny → Option String
  | GoAny.string s => some s
  | _ => none

/-- The receiver after `n` calls of `JSONText`, one after another. -/
def restResponseSTD.JSONTextTimes {D E : Type}
    (marshal : xresponse.ResponseSTD D E → Except String String) :
    Nat → restResponseSTD D E → restResponseSTD D E
  | 0, r => r
  | n + 1, r => restResponseSTD.JSONTextTimes marshal n (r.JSONText marshal).2

/-- Whether the call is `AddHeader` or `DelHeader`. -/
def Call.isHeaderCall {D E : Type} : Call D E → Bool
  | .AddHeader _ _ => true
  | .DelHeader _ => true
  | _ => false

/-- A world with the builder `blank handler` at address 1 and no events. -/
def world1 (handler : Option InterceptHandler) : World Nat Nat :=
  { heap := fun p => if p = 1 then some (blank handler) else none, trace := [] }

/-! ## Lemmas on the terminal operations -/

section lemmas
variable {D E : Type}

theorem Done_fst (self : Ptr) (r : restResponseSTD D E) :
    (r.Done self).1 =
      { onceFn := r.onceFn
        ResponseSTD := { r.ResponseSTD with
          statusCode := defaulted r.ResponseSTD.statusCode
          interceptOnceFn := ⟨true⟩ } } := by
  obtain ⟨o, ⟨⟨io⟩, ih, rw, rq, hd, sc, m, c, d, e, t⟩⟩ := r
  cases io <;> cases ih <;> by_cases hsc : sc = 0 <;>
    simp [restResponseSTD.Done, restResponseSTD.deferred, restResponseSTD.defaultStatus,
      sync.Once.Do, restResponseSTD.interceptBody, defaulted, hsc]

theorem Done_snd (self : Ptr) (r : restResponseSTD D E) :
    (r.Done self).2 = interceptEvents self r := by
  obtain ⟨o, ⟨⟨io⟩, ih, rw, rq, hd, sc, m, c, d, e, t⟩⟩ := r
  cases io <;> cases ih <;> by_cases hsc : sc = 0 <;>
    simp [restResponseSTD.Done, restResponseSTD.deferred, restResponseSTD.defaultStatus,
      sync.Once.Do, restResponseSTD.interceptBody, interceptEvents, hsc]

theorem JSON_fst (self : Ptr) (r : restResponseSTD D E) :
    (r.JSON self).1 =
      { onceFn := ⟨true⟩
        ResponseSTD := { r.ResponseSTD with
          statusCode := defaulted r.ResponseSTD.statusCode
          interceptOnceFn := ⟨true⟩ } } := by
  obtain ⟨⟨o⟩, ⟨⟨io⟩, ih, rw, rq, hd, sc, m, c, d, e, t⟩⟩ := r
  cases o <;> cases io <;> cases ih <;> by_cases hsc : sc = 0 <;>
    simp [restResponseSTD.JSON, restResponseSTD.deferred, restResponseSTD.defaultStatus,
      sync.Once.Do, restResponseSTD.interceptBody, ResponseSTD.RestJSON, defaulted, hsc]

theorem JSON_snd (self : Ptr) (r : restResponseSTD D E) :
    (r.JSON self).2 = writeEvents r ++ interceptEvents self r := by
  obtain ⟨⟨o⟩, ⟨⟨io⟩, ih, rw, rq, hd, sc, m, c, d, e, t⟩⟩ := r
  cases o <;> cases io <;> cases ih <;> by_cases hsc : sc = 0 <;>
    simp [restResponseSTD.JSON, restResponseSTD.deferred, restResponseSTD.defaultStatus,
      sync.Once.Do, restResponseSTD.interceptBody, ResponseSTD.RestJSON, interceptEvents,
      writeEvents, defaulted, hsc]

/-- A getter after a sequence of calls, from its behaviour on one call. -/
theorem calls_get {α : Type} (self : Ptr) (get : restResponseSTD D E → α)
    (pick : Call D E → Option α) (P : Call D E → Prop)
    (hstep : ∀ r c, P c → get (r.call self c).1 = (pick c).getD (get r)) :
    ∀ (cs : List (Call D E)) (r : restResponseSTD D E), (∀ c ∈ cs, P c) →
      get (r.calls self cs).1 = (lastArg pick cs).getD (get r) := by
  intro cs
  induction cs with
  | nil => intro r _; rfl
  | cons c cs ih =>
    intro r hP
    have hc : P c := hP c (List.mem_cons_self c cs)
    have hcs : ∀ x ∈ cs, P x := fun x hx => hP x (List.mem_cons_of_mem c hx)
    have h1 := ih (r.call self c).1 hcs
    have h2 := hstep r c hc
    simp only [restResponseSTD.calls, lastArg]
    rw [h1, h2]
    cases lastArg pick cs <;> rfl

/-- A quantity no call in the sequence changes is the same after the sequence. -/
theorem calls_keep {α : Type} (self : Ptr) (get : restResponseSTD D E → α)
    (P : Call D E → Prop)
    (hstep : ∀ r c, P c → get (r.call self c).1 = get r) :
    ∀ (cs : List (Call D E)) (r : restResponseSTD D E), (∀ c ∈ cs, P c) →
      get (r.calls self cs).1 = get r := by
  intro cs
  induction cs with
  | nil => intro r _; rfl
  | cons c cs ih =>
    intro r hP
    have hc : P c := hP c (List.mem_cons_self c cs)
    have hcs : ∀ x ∈ cs, P x := fun x hx => hP x (List.mem_cons_of_mem c hx)
    simp only [restResponseSTD.calls]
    rw [ih (r.call self c).1 hcs, hstep r c hc]

theorem call_GetMsg (self : Ptr) (r : restResponseSTD D E) (c : Call D E) :
    (r.call self c).1.GetMsg = (c.msgArg).getD r.GetMsg := by
  cases c <;> simp [restResponseSTD.call, Done_fst, JSON_fst] <;> rfl

theorem call_GetAnyCode (self : Ptr) (r : restResponseSTD D E) (c : Call D E) :
    (r.call self c).1.GetAnyCode = (c.codeArg).getD r.GetAnyCode := by
  cases c <;> simp [restResponseSTD.call, Done_fst, JSON_fst] <;> rfl

theorem call_GetData (self : Ptr) (r : restResponseSTD D E) (c : Call D E) :
    (r.call self c).1.GetData = (c.dataArg).getD r.GetData := by
  cases c <;> simp [restResponseSTD.call, Done_fst, JSON_fst] <;> rfl

theorem call_GetError (self : Ptr) (r : restResponseSTD D E) (c : Call D E) :
    (r.call self c).1.GetError = (c.errorArg).getD r.GetError := by
  cases c <;> simp [restResponseSTD.call, Done_fst, JSON_fst] <;> rfl

theorem call_GetStatusCode (self : Ptr) (r : restResponseSTD D E) (c : Call D E)
    (hc : c.isSetter = true) :
    (r.call self c).1.GetStatusCode = (c.statusCodeArg).getD r.GetStatusCode := by
  cases c <;> first | (simp [Call.isSetter] at hc; done) | rfl

theorem call_setter_events (self : Ptr) (r : restResponseSTD D E) (c : Call D E)
    (hc : c.isSetter = true) : (r.call self c).2 = [] := by
  cases c <;> first | (simp [Call.isSetter] at hc; done) | rfl

theorem call_setter_onceFn (self : Ptr) (r : restResponseSTD D E) (c : Call D E)
    (hc : c.isSetter = true) : (r.call self c).1.onceFn = r.onceFn := by
  cases c <;> first | (simp [Call.isSetter] at hc; done) | rfl

theorem call_interceptHandler (self : Ptr) (r : restResponseSTD D E) (c : Call D E) :
    (r.call self c).1.ResponseSTD.interceptHandler = r.ResponseSTD.interceptHandler := by
  cases c <;> simp [restResponseSTD.call, Done_fst, JSON_fst] <;> rfl

end lemmas


/-! ## The status code committed by `JSON` -/

section claims
variable {D E : Type}

theorem new_builder_state [Inhabited D] [Inhabited E] (req : http.Request)
    (rw : http.ResponseWriter) (handler : Option InterceptHandler) (b : restResponseSTD D E)
    (hb : NewRestResponse req rw = some b ∨
      NewRestResponseWithInterceptor req rw handler = some b) :
    b.onceFn.done = false ∧ b.ResponseSTD.interceptOnceFn.done = false ∧
      b.ResponseSTD.statusCode = 0 ∧ b.ResponseSTD.Code = GoAny.nil ∧
      b.ResponseSTD.Msg = "" := by
  rcases hb with hb | hb
  · unfold NewRestResponse at hb
    split at hb
    · cases hb; simp
    · cases hb
  · unfold NewRestResponseWithInterceptor at hb
    split at hb
    · cases hb; simp
    · cases hb

/-- C1, as the code has it: after any sequence of setter calls on a new builder, a
single `JSON()` performs one transport write, and the status code of that write,
which `GetStatusCode` returns afterwards, is the argument of the last `StatusCode`
call when that argument is not 0, and 200 when `StatusCode` was never called or
was last called with 0. -/
theorem JSON_commits_last_nonzero_StatusCode [Inhabited D] [Inhabited E]
    (req : http.Request) (rw : http.ResponseWriter) (handler : Option InterceptHandler)
    (b : restResponseSTD D E)
    (hb : NewRestResponse req rw = some b ∨
      NewRestResponseWithInterceptor req rw handler = some b)
    (cs : List (Call D E)) (hcs : ∀ c ∈ cs, c.isSetter = true) (self : Ptr) :
    writtenStatus ((b.calls self cs).1.JSON self).2 = [committedStatus cs] ∧
      ((b.calls self cs).1.JSON self).1.GetStatusCode = committedStatus cs := by
  obtain ⟨hw, -, hs, -, -⟩ := new_builder_state req rw handler b hb
  have hsc : (b.calls self cs).1.ResponseSTD.statusCode =
      (lastArg Call.statusCodeArg cs).getD 0 := by
    have h := calls_get self restResponseSTD.GetStatusCode Call.statusCodeArg
      (fun c => c.isSetter = true) (fun r c hc => call_GetStatusCode self r c hc) cs b hcs
    simpa [restResponseSTD.GetStatusCode, hs] using h
  have hon : (b.calls self cs).1.onceFn.done = false := by
    have h := calls_keep self (fun r : restResponseSTD D E => r.onceFn)
      (fun c => c.isSetter = true) (fun r c hc => call_setter_onceFn self r c hc) cs b hcs
    simp only at h
    rw [h, hw]
  have hst : defaulted ((lastArg Call.statusCodeArg cs).getD 0) = committedStatus cs := by
    unfold committedStatus defaulted
    cases lastArg Call.statusCodeArg cs <;> simp [http.StatusOK]
  constructor
  · rw [JSON_snd]
    unfold writeEvents interceptEvents
    rw [hon, hsc, hst]
    cases (b.calls self cs).1.ResponseSTD.interceptOnceFn.done <;>
      cases (b.calls self cs).1.ResponseSTD.interceptHandler <;>
      simp [writtenStatus]
  · rw [JSON_fst]
    simp [restResponseSTD.GetStatusCode, hsc, hst]

/-- An instance on a new builder: after the chain
`StatusCode(422).Msg("invalid").StatusCode(0).StatusCode(404)`, `JSON()` commits 404. -/
theorem JSON_commits_last_nonzero_StatusCode_witness :
    writtenStatus (((blank none).calls 1
        [Call.StatusCode 422, Call.Msg "invalid", Call.StatusCode 0, Call.StatusCode 404]).1.JSON
          1).2 = [404] ∧
      (((blank none).calls 1
        [Call.StatusCode 422, Call.Msg "invalid", Call.StatusCode 0, Call.StatusCode 404]).1.JSON
          1).1.GetStatusCode = 404 :=
  JSON_commits_last_nonzero_StatusCode (requestWithID (GoAny.string "req-1")) ⟨0⟩ none
    (blank none) (Or.inl rfl)
    [Call.StatusCode 422, Call.Msg "invalid", Call.StatusCode 0, Call.StatusCode 404]
    (by decide) 1

/-- C1 fails as stated: on a new builder, `StatusCode(0)` followed by `JSON()` commits
and keeps the status 200, while the last `StatusCode` value set is 0. -/
theorem JSON_status_after_StatusCode_zero :
    (NewRestResponse (requestWithID (GoAny.string "req-1")) ⟨0⟩ :
        Option (restResponseSTD Nat Nat)).map
      (fun b => (writtenStatus ((b.calls 1 [Call.StatusCode 0]).1.JSON 1).2,
        ((b.calls 1 [Call.StatusCode 0]).1.JSON 1).1.GetStatusCode)) = some ([200], 200) ∧
      claimedStatus [(Call.StatusCode 0 : Call Nat Nat)] = 0 :=
  ⟨rfl, rfl⟩

/-! ## Exactly-once write and interception -/

theorem call_write_count (self : Ptr) (r : restResponseSTD D E) (c : Call D E) :
    (r.call self c).2.countP Event.isWrite =
      if r.onceFn.done then 0 else if c.isJSON then 1 else 0 := by
  cases c <;> simp [restResponseSTD.call, Done_snd, JSON_snd, Call.isJSON, interceptEvents,
    writeEvents, List.countP_append]
  · cases r.ResponseSTD.interceptOnceFn.done <;> cases r.ResponseSTD.interceptHandler <;>
      simp [Event.isWrite]
  · cases r.onceFn.done <;> cases r.ResponseSTD.interceptOnceFn.done <;>
      cases r.ResponseSTD.interceptHandler <;> simp [Event.isWrite]

theorem call_onceFn_done (self : Ptr) (r : restResponseSTD D E) (c : Call D E) :
    (r.call self c).1.onceFn.done = (r.onceFn.done || c.isJSON) := by
  cases c <;> simp [restResponseSTD.call, Done_fst, JSON_fst, Call.isJSON] <;> rfl

theorem call_intercept_count (self : Ptr) (r : restResponseSTD D E) (c : Call D E) :
    (r.call self c).2.countP Event.isIntercept =
      if r.ResponseSTD.interceptOnceFn.done then 0
      else if c.isTerminal then (if r.ResponseSTD.interceptHandler.isSome then 1 else 0)
      else 0 := by
  cases c <;> simp [restResponseSTD.call, Done_snd, JSON_snd, Call.isTerminal, interceptEvents,
    writeEvents, List.countP_append]
  · cases r.ResponseSTD.interceptOnceFn.done <;> cases r.ResponseSTD.interceptHandler <;>
      simp [Event.isIntercept]
  · cases r.onceFn.done <;> cases r.ResponseSTD.interceptOnceFn.done <;>
      cases r.ResponseSTD.interceptHandler <;> simp [Event.isIntercept]

theorem call_interceptOnceFn_done (self : Ptr) (r : restResponseSTD D E) (c : Call D E) :
    (r.call self c).1.ResponseSTD.interceptOnceFn.done =
      (r.ResponseSTD.interceptOnceFn.done || c.isTerminal) := by
  cases c <;> simp [restResponseSTD.call, Done_fst, JSON_fst, Call.isTerminal] <;> rfl

theorem calls_write_count (self : Ptr) :
    ∀ (cs : List (Call D E)) (r : restResponseSTD D E),
      (r.calls self cs).2.countP Event.isWrite =
        if r.onceFn.done then 0 else if cs.any Call.isJSON then 1 else 0 := by
  intro cs
  induction cs with
  | nil => intro r; simp [restResponseSTD.calls]
  | cons c cs ih =>
    intro r
    simp only [restResponseSTD.calls, List.countP_append, ih, call_write_count,
      call_onceFn_done, List.any_cons]
    cases r.onceFn.done <;> by_cases hj : c.isJSON = true <;> simp [hj]

theorem calls_intercept_count (self : Ptr) :
    ∀ (cs : List (Call D E)) (r : restResponseSTD D E),
      (r.calls self cs).2.countP Event.isIntercept =
        if r.ResponseSTD.interceptOnceFn.done then 0
        else if cs.any Call.isTerminal then
          (if r.ResponseSTD.interceptHandler.isSome then 1 else 0)
        else 0 := by
  intro cs
  induction cs with
  | nil => intro r; simp [restResponseSTD.calls]
  | cons c cs ih =>
    intro r
    simp only [restResponseSTD.calls, List.countP_append, ih, call_intercept_count,
      call_interceptOnceFn_done, call_interceptHandler, List.any_cons]
    cases r.ResponseSTD.interceptOnceFn.done <;> by_cases hj : c.isTerminal = true <;> simp [hj]

/-- C2: on a builder whose latches are unspent (no terminal call has run on it), a
sequence of calls with N > 1 terminal calls (`JSON` or `Done`, with or without
setter calls in between) performs the transport write exactly once when it
contains a `JSON` call (and never otherwise), and invokes the interceptor exactly
once when one is bound and never when none is bound. -/
theorem terminal_calls_write_once_intercept_once (r : restResponseSTD D E)
    (hw : r.onceFn.done = false) (hi : r.ResponseSTD.interceptOnceFn.done = false)
    (cs : List (Call D E)) (hN : 1 < (cs.filter Call.isTerminal).length) (self : Ptr) :
    (r.calls self cs).2.countP Event.isWrite = (if cs.any Call.isJSON then 1 else 0) ∧
      (r.calls self cs).2.countP Event.isIntercept =
        (if r.ResponseSTD.interceptHandler.isSome then 1 else 0) := by
  have hany : cs.any Call.isTerminal = true := by
    have hpos : 0 < (cs.filter Call.isTerminal).length := by omega
    obtain ⟨c, hc⟩ := List.exists_mem_of_length_pos hpos
    rw [List.mem_filter] at hc
    exact List.any_eq_true.mpr ⟨c, hc.1, hc.2⟩
  constructor
  · rw [calls_write_count, hw]; simp
  · rw [calls_intercept_count, hi, hany]; simp

/-- An instance with a bound interceptor: `Done(); JSON(); JSON(); Done()` writes once
and starts the handler once. -/
theorem terminal_calls_write_once_intercept_once_witness :
    (((blank (some ⟨7⟩)).calls 1 [Call.Done, Call.JSON, Call.JSON, Call.Done]).2.countP
        Event.isWrite = 1) ∧
      (((blank (some ⟨7⟩)).calls 1 [Call.Done, Call.JSON, Call.JSON, Call.Done]).2.countP
        Event.isIntercept = 1) :=
  terminal_calls_write_once_intercept_once (blank (some ⟨7⟩)) rfl rfl
    [Call.Done, Call.JSON, Call.JSON, Call.Done] (by decide) 1

/-! ## Raw and narrowed code -/

theorem GetCode_of_GetAnyCode (r : restResponseSTD D E) :
    (∀ k, r.GetAnyCode = GoAny.restKey k → r.GetCode = k) ∧
      ((∀ k, r.GetAnyCode ≠ GoAny.restKey k) → r.GetCode = restkey.UNKNOWN) := by
  unfold restResponseSTD.GetAnyCode restResponseSTD.GetCode
  cases r.ResponseSTD.Code <;> simp

/-- C3: in every state a builder reaches from its construction by calls `cs`,
`GetAnyCode()` returns the raw value stored by the last `Code`/`AnyCode` call (nil
when there was none), and `GetCode()` returns that value when it is a
`restkey.RestKey` and the `UNKNOWN` sentinel otherwise, also when no code was
ever set. -/
theorem GetAnyCode_raw_GetCode_narrowed [Inhabited D] [Inhabited E]
    (req : http.Request) (rw : http.ResponseWriter) (handler : Option InterceptHandler)
    (b : restResponseSTD D E)
    (hb : NewRestResponse req rw = some b ∨
      NewRestResponseWithInterceptor req rw handler = some b)
    (cs : List (Call D E)) (self : Ptr) :
    (b.calls self cs).1.GetAnyCode = (lastArg Call.codeArg cs).getD GoAny.nil ∧
      (∀ k, (lastArg Call.codeArg cs).getD GoAny.nil = GoAny.restKey k →
        (b.calls self cs).1.GetCode = k) ∧
      ((∀ k, (lastArg Call.codeArg cs).getD GoAny.nil ≠ GoAny.restKey k) →
        (b.calls self cs).1.GetCode = restkey.UNKNOWN) ∧
      (lastArg Call.codeArg cs = none → (b.calls self cs).1.GetCode = restkey.UNKNOWN) := by
  obtain ⟨-, -, -, hc, -⟩ := new_builder_state req rw handler b hb
  have h : (b.calls self cs).1.GetAnyCode = (lastArg Call.codeArg cs).getD GoAny.nil := by
    have h := calls_get self restResponseSTD.GetAnyCode Call.codeArg (fun _ => True)
      (fun r c _ => call_GetAnyCode self r c) cs b (fun _ _ => trivial)
    simpa [restResponseSTD.GetAnyCode, hc] using h
  have hg := GetCode_of_GetAnyCode (b.calls self cs).1
  rw [h] at hg
  refine ⟨h, hg.1, hg.2, ?_⟩
  intro hnone
  apply hg.2
  rw [hnone]
  intro k hk
  cases hk

/-- An instance on a new builder: after `Code(SUCCESS)`, `JSON()` and `AnyCode("E42")` the
raw value is the string, not a key. -/
theorem GetAnyCode_raw_GetCode_narrowed_witness :
    ((blank none).calls 1
      [Call.Code ⟨"SUCCESS"⟩, Call.JSON, Call.AnyCode (GoAny.string "E42")]).1.GetAnyCode =
        GoAny.string "E42" :=
  (GetAnyCode_raw_GetCode_narrowed (requestWithID (GoAny.string "req-1")) ⟨0⟩ none
    (blank none) (Or.inl rfl)
    [Call.Code ⟨"SUCCESS"⟩, Call.JSON, Call.AnyCode (GoAny.string "E42")] 1).1

/-! ## Construction -/

/-- C4, as the code has it: both constructors return a builder whose TraceID is the
string stored in the request context under `RequestIDKey`, empty or not, and fail
when no string is stored there: the identifier is absent (nil) or the stored
value is of another type. -/
theorem constructors_bind_context_string [Inhabited D] [Inhabited E]
    (req : http.Request) (rw : http.ResponseWriter) (handler : Option InterceptHandler) :
    match req.contextValue ctxkey.Key.RequestIDKey with
    | GoAny.string id =>
      (NewRestResponse req rw : Option (restResponseSTD D E)).map
          (fun b => b.ResponseSTD.TraceID) = some id ∧
        (NewRestResponseWithInterceptor req rw handler : Option (restResponseSTD D E)).map
          (fun b => b.ResponseSTD.TraceID) = some id
    | _ =>
      (NewRestResponse req rw : Option (restResponseSTD D E)) = none ∧
        (NewRestResponseWithInterceptor req rw handler : Option (restResponseSTD D E)) =
          none := by
  cases h : req.contextValue ctxkey.Key.RequestIDKey <;>
    simp [NewRestResponse, NewRestResponseWithInterceptor, h]

/-- C4 fails as stated: with the empty string stored under `RequestIDKey`, both
constructors return a builder, and its TraceID is empty. -/
theorem constructors_accept_empty_identifier :
    (NewRestResponse (requestWithID (GoAny.string "")) ⟨0⟩ :
        Option (restResponseSTD Nat Nat)).map (fun b => b.ResponseSTD.TraceID) = some "" ∧
      (NewRestResponseWithInterceptor (requestWithID (GoAny.string "")) ⟨0⟩ (some ⟨7⟩) :
        Option (restResponseSTD Nat Nat)).map (fun b => b.ResponseSTD.TraceID) = some "" :=
  ⟨rfl, rfl⟩

/-! ## `JSONText` -/

/-- C5: `JSONText()` returns the encoding of the current state and leaves the builder
as it is: after any number of calls every field and both latches are unchanged,
so a later `JSON()` (or `Done()`) ends in the same state with the same write and
the same interceptor invocation as without them. -/
theorem JSONText_leaves_builder (marshal : ResponseSTD D E → Except String String)
    (r : restResponseSTD D E) (n : Nat) (self : Ptr) :
    (r.JSONText marshal).1 = marshal r.ResponseSTD ∧
      restResponseSTD.JSONTextTimes marshal n r = r ∧
      (restResponseSTD.JSONTextTimes marshal n r).JSON self = r.JSON self ∧
      (restResponseSTD.JSONTextTimes marshal n r).Done self = r.Done self := by
  have h : ∀ (k : Nat) (x : restResponseSTD D E),
      restResponseSTD.JSONTextTimes marshal k x = x := by
    intro k
    induction k with
    | zero => intro x; rfl
    | succ k ih => intro x; exact ih _
  rw [h n r]
  exact ⟨rfl, rfl, rfl, rfl⟩

/-! ## Setters -/

theorem Ref.call_eq (p : Ptr) (w : World D E) (r : restResponseSTD D E)
    (hp : w.heap p = some r) (c : Call D E) :
    Ref.call p w c = some (if c.isSetter then some p else none,
      { heap := Function.update w.heap p (some (r.call p c).1)
        trace := w.trace ++ (r.call p c).2 }) := by
  cases c <;>
    simp [Ref.call, Ref.Msg, Ref.Code, Ref.AnyCode, Ref.Data, Ref.Error, Ref.StatusCode,
      Ref.AddHeader, Ref.DelHeader, Ref.Done, Ref.JSON, World.exec, hp, Call.isSetter,
      restResponseSTD.call]

theorem Ref.calls_eq (p : Ptr) :
    ∀ (cs : List (Call D E)) (w : World D E) (r : restResponseSTD D E), w.heap p = some r →
      Ref.calls p w cs = some
        { heap := Function.update w.heap p (some (r.calls p cs).1)
          trace := w.trace ++ (r.calls p cs).2 } := by
  intro cs
  induction cs with
  | nil =>
    intro w r hp
    have : Function.update w.heap p (some r) = w.heap := by
      rw [← hp]; exact Function.update_eq_self p w.heap
    simp [Ref.calls, restResponseSTD.calls, this]
  | cons c cs ih =>
    intro w r hp
    simp only [Ref.calls, Ref.call_eq p w r hp c]
    rw [ih _ (r.call p c).1 (by simp)]
    simp [restResponseSTD.calls, List.append_assoc]

/-- C6: every setter returns the builder it was called on and writes to nothing but
that builder and produces no event; after any sequence of setter calls each scalar
getter returns the argument of the most recent call of its setter (the value held
before when there was none); and a setter leaves every field other than its own,
both latches, the handler, the request and the TraceID as they were. -/
theorem setters_return_receiver_last_write_wins (w : World D E) (p : Ptr)
    (r : restResponseSTD D E) (hp : w.heap p = some r)
    (c : Call D E) (hc : c.isSetter = true)
    (cs : List (Call D E)) (hcs : ∀ x ∈ cs, x.isSetter = true) :
    Ref.call p w c = some (some p,
        { heap := Function.update w.heap p (some (r.call p c).1), trace := w.trace }) ∧
      ((r.calls p cs).1.GetMsg = (lastArg Call.msgArg cs).getD r.GetMsg ∧
        (r.calls p cs).1.GetAnyCode = (lastArg Call.codeArg cs).getD r.GetAnyCode ∧
        (r.calls p cs).1.GetData = (lastArg Call.dataArg cs).getD r.GetData ∧
        (r.calls p cs).1.GetError = (lastArg Call.errorArg cs).getD r.GetError ∧
        (r.calls p cs).1.GetStatusCode =
          (lastArg Call.statusCodeArg cs).getD r.GetStatusCode) ∧
      ((c.msgArg = none → (r.call p c).1.GetMsg = r.GetMsg) ∧
        (c.codeArg = none → (r.call p c).1.GetAnyCode = r.GetAnyCode) ∧
        (c.dataArg = none → (r.call p c).1.GetData = r.GetData) ∧
        (c.errorArg = none → (r.call p c).1.GetError = r.GetError) ∧
        (c.statusCodeArg = none → (r.call p c).1.GetStatusCode = r.GetStatusCode) ∧
        (c.isHeaderCall = false →
          (r.call p c).1.GetResponseHeader = r.GetResponseHeader) ∧
        (r.call p c).1.onceFn = r.onceFn ∧
        (r.call p c).1.ResponseSTD.interceptOnceFn = r.ResponseSTD.interceptOnceFn ∧
        (r.call p c).1.ResponseSTD.interceptHandler = r.ResponseSTD.interceptHandler ∧
        (r.call p c).1.ResponseSTD.request = r.ResponseSTD.request ∧
        (r.call p c).1.ResponseSTD.responseWriter = r.ResponseSTD.responseWriter ∧
        (r.call p c).1.ResponseSTD.TraceID = r.ResponseSTD.TraceID) := by
  refine ⟨?_, ⟨?_, ?_, ?_, ?_, ?_⟩, ?_⟩
  · rw [Ref.call_eq p w r hp c, call_setter_events p r c hc, hc]
    simp
  · exact calls_get p restResponseSTD.GetMsg Call.msgArg (fun _ => True)
      (fun r c _ => call_GetMsg p r c) cs r (fun _ _ => trivial)
  · exact calls_get p restResponseSTD.GetAnyCode Call.codeArg (fun _ => True)
      (fun r c _ => call_GetAnyCode p r c) cs r (fun _ _ => trivial)
  · exact calls_get p restResponseSTD.GetData Call.dataArg (fun _ => True)
      (fun r c _ => call_GetData p r c) cs r (fun _ _ => trivial)
  · exact calls_get p restResponseSTD.GetError Call.errorArg (fun _ => True)
      (fun r c _ => call_GetError p r c) cs r (fun _ _ => trivial)
  · exact calls_get p restResponseSTD.GetStatusCode Call.statusCodeArg
      (fun c => c.isSetter = true) (fun r c hc => call_GetStatusCode p r c hc) cs r hcs
  · cases c <;> first
      | (simp [Call.isSetter] at hc; done)
      | (refine ⟨?_, ?_, ?_, ?_, ?_, ?_, rfl, rfl, rfl, rfl, rfl, rfl⟩ <;> intro h <;>
          first | rfl | (simp [Call.msgArg, Call.codeArg, Call.dataArg, Call.errorArg,
            Call.statusCodeArg, Call.isHeaderCall] at h))

/-- An instance on the builder at address 1: `StatusCode(404)` returns the address 1,
and `GetMsg` after the chain `Msg("a").StatusCode(500).Msg("b")` is "b". -/
theorem setters_return_receiver_last_write_wins_witness :
    (Ref.call 1 (world1 none) (Call.StatusCode 404)).map (fun x => x.1) = some (some 1) ∧
      ((blank none).calls 1 [Call.Msg "a", Call.StatusCode 500, Call.Msg "b"]).1.GetMsg = "b" :=
  have h := setters_return_receiver_last_write_wins (world1 none) 1 (blank none) rfl
    (Call.StatusCode 404) rfl [Call.Msg "a", Call.StatusCode 500, Call.Msg "b"] (by decide)
  ⟨by rw [h.1]; rfl, h.2.1.1⟩

/-! ## `Done` against `JSON` -/

/-- C7: `Done()` and `JSON()` leave the same status code (200 for 0, any other value
kept), the same interceptor latch and the same fields, and start the same
interceptor invocation; `Done()` produces no other event (no transport write) and
leaves the write latch as it was, so that `JSON()` after `Done()` on an unspent
write latch performs the one transport write. -/
theorem Done_as_JSON_without_write (r : restResponseSTD D E) (self : Ptr) :
    (r.Done self).1.GetStatusCode = (if r.GetStatusCode = 0 then 200 else r.GetStatusCode) ∧
      (r.JSON self).1.GetStatusCode = (if r.GetStatusCode = 0 then 200 else r.GetStatusCode) ∧
      (r.Done self).1.ResponseSTD = (r.JSON self).1.ResponseSTD ∧
      (r.Done self).2 = (r.JSON self).2.filter Event.isIntercept ∧
      (r.Done self).2.countP Event.isWrite = 0 ∧
      (r.Done self).1.onceFn = r.onceFn ∧
      ((r.Done self).1.JSON self).2.countP Event.isWrite =
        (if r.onceFn.done then 0 else 1) := by
  refine ⟨?_, ?_, ?_, ?_, ?_, ?_, ?_⟩
  · rw [Done_fst]; rfl
  · rw [JSON_fst]; rfl
  · rw [Done_fst, JSON_fst]
  · rw [Done_snd, JSON_snd]
    unfold writeEvents interceptEvents
    cases r.onceFn.done <;> cases r.ResponseSTD.interceptOnceFn.done <;>
      cases r.ResponseSTD.interceptHandler <;> simp [Event.isIntercept]
  · rw [Done_snd]
    unfold interceptEvents
    cases r.ResponseSTD.interceptOnceFn.done <;>
      cases r.ResponseSTD.interceptHandler <;> simp [Event.isWrite]
  · rw [Done_fst]
  · rw [JSON_snd, Done_fst]
    unfold writeEvents interceptEvents
    cases r.onceFn.done <;> simp [Event.isWrite]

/-! ## Header operations -/

/-- C8, as the code has it: the header map is keyed by canonical keys. `AddHeader(k, v)`
appends `v` to the values stored under the canonical form of `k`, so that
repeated adds on keys of one canonical form keep all values in call order, and
leaves every other key of the map as it was; `AddHeader` calls on keys of distinct
canonical forms give the same builder in either order; `DelHeader(k)` removes
every value stored under the canonical form of `k` and leaves every other key of
the map as it was. -/
theorem header_operations_canonical (r : restResponseSTD D E) (k v v1 v2 k1 k2 : String)
    (hk : textproto.CanonicalMIMEHeaderKey k1 ≠ textproto.CanonicalMIMEHeaderKey k2) :
    (r.AddHeader k v).GetResponseHeader (textproto.CanonicalMIMEHeaderKey k) =
        some ((r.GetResponseHeader (textproto.CanonicalMIMEHeaderKey k)).getD [] ++ [v]) ∧
      (∀ j, textproto.CanonicalMIMEHeaderKey j = textproto.CanonicalMIMEHeaderKey k →
        ((r.AddHeader k v1).AddHeader j v2).GetResponseHeader
            (textproto.CanonicalMIMEHeaderKey k) =
          some ((r.GetResponseHeader (textproto.CanonicalMIMEHeaderKey k)).getD [] ++
            [v1, v2])) ∧
      (∀ x, x ≠ textproto.CanonicalMIMEHeaderKey k →
        (r.AddHeader k v).GetResponseHeader x = r.GetResponseHeader x) ∧
      (r.AddHeader k1 v1).AddHeader k2 v2 = (r.AddHeader k2 v2).AddHeader k1 v1 ∧
      (r.DelHeader k).GetResponseHeader (textproto.CanonicalMIMEHeaderKey k) = none ∧
      (∀ x, x ≠ textproto.CanonicalMIMEHeaderKey k →
        (r.DelHeader k).GetResponseHeader x = r.GetResponseHeader x) := by
  have hk2 : textproto.CanonicalMIMEHeaderKey k2 ≠ textproto.CanonicalMIMEHeaderKey k1 :=
    fun h => hk h.symm
  refine ⟨?_, ?_, ?_, ?_, ?_, ?_⟩
  · simp [restResponseSTD.AddHeader, restResponseSTD.GetResponseHeader, ResponseSTD.SetHeader,
      http.Header.Add]
  · intro j hj
    simp [restResponseSTD.AddHeader, restResponseSTD.GetResponseHeader, ResponseSTD.SetHeader,
      http.Header.Add, hj]
  · intro x hx
    simp [restResponseSTD.AddHeader, restResponseSTD.GetResponseHeader, ResponseSTD.SetHeader,
      http.Header.Add, hx]
  · have hh : (r.ResponseSTD.responseHeader.Add k1 v1).Add k2 v2 =
        (r.ResponseSTD.responseHeader.Add k2 v2).Add k1 v1 := by
      funext x
      by_cases h1 : x = textproto.CanonicalMIMEHeaderKey k1
      · subst h1; simp [http.Header.Add, hk, hk2]
      · by_cases h2 : x = textproto.CanonicalMIMEHeaderKey k2
        · subst h2; simp [http.Header.Add, hk, hk2]
        · simp [http.Header.Add, h1, h2]
    simp only [restResponseSTD.AddHeader, ResponseSTD.SetHeader, hh]
  · simp [restResponseSTD.DelHeader, restResponseSTD.GetResponseHeader, ResponseSTD.DelHeader,
      http.Header.Del]
  · intro x hx
    simp [restResponseSTD.DelHeader, restResponseSTD.GetResponseHeader, ResponseSTD.DelHeader,
      http.Header.Del, hx]

/-- An instance: `AddHeader("x-a", "1")` and `AddHeader("content-type", "2")` give the
same builder in both orders, and `AddHeader("x-a", "1")` stores under "X-A". -/
theorem header_operations_canonical_witness :
    ((blank none).AddHeader "x-a" "1").AddHeader "content-type" "2" =
        ((blank none).AddHeader "content-type" "2").AddHeader "x-a" "1" ∧
      ((blank none).AddHeader "x-a" "1").GetResponseHeader "X-A" = some ["1"] :=
  have h := header_operations_canonical (blank none) "x-a" "1" "1" "2" "x-a" "content-type"
    (by decide)
  ⟨h.2.2.2.1, h.1⟩

/-- C8 fails as stated: the keys "x-a" and "X-A" are distinct, yet `AddHeader` on them
does not commute (both store under "X-A", in call order), `AddHeader("x-a", "1")`
stores nothing under "x-a", and `DelHeader("x-a")` removes the values of the
other key "X-A". -/
theorem header_keys_differing_in_case :
    (((blank none).AddHeader "x-a" "1").AddHeader "X-A" "2").GetResponseHeader "X-A" =
        some ["1", "2"] ∧
      (((blank none).AddHeader "X-A" "2").AddHeader "x-a" "1").GetResponseHeader "X-A" =
        some ["2", "1"] ∧
      ((blank none).AddHeader "x-a" "1").GetResponseHeader "x-a" = none ∧
      ((blank none).AddHeader "X-A" "2").GetResponseHeader "X-A" = some ["2"] ∧
      (((blank none).AddHeader "X-A" "2").DelHeader "x-a").GetResponseHeader "X-A" = none := by
  refine ⟨?_, ?_, ?_, ?_, ?_⟩ <;> decide

/-! ## Order of write and interception -/

theorem calls_spent (self : Ptr) :
    ∀ (cs : List (Call D E)) (r : restResponseSTD D E), r.onceFn.done = true →
      r.ResponseSTD.interceptOnceFn.done = true → (r.calls self cs).2 = [] := by
  intro cs
  induction cs with
  | nil => intro r _ _; rfl
  | cons c cs ih =>
    intro r hw hi
    have h1 : (r.call self c).1.onceFn.done = true := by
      rw [call_onceFn_done, hw]; rfl
    have h2 : (r.call self c).1.ResponseSTD.interceptOnceFn.done = true := by
      rw [call_interceptOnceFn_done, hi]; rfl
    have h3 : (r.call self c).2 = [] := by
      cases c <;> simp [restResponseSTD.call, Done_snd, JSON_snd, writeEvents,
        interceptEvents, hw, hi]
    simp only [restResponseSTD.calls]
    rw [ih _ h1 h2, h3]
    rfl

theorem calls_JSON_first (r : restResponseSTD D E) (rest : List (Call D E)) (self : Ptr) :
    (r.calls self (Call.JSON :: rest)).2 = (r.JSON self).2 := by
  simp only [restResponseSTD.calls, restResponseSTD.call]
  rw [calls_spent self rest (r.JSON self).1 (by rw [JSON_fst]) (by rw [JSON_fst])]
  simp

/-- C9, as the code has it: on a builder with a bound interceptor and both latches
unspent, every sequence of calls that begins with `JSON()` produces exactly two
events, the transport write and then the start of the handler, whatever calls
follow; so no interceptor invocation precedes a transport write. -/
theorem JSON_first_writes_before_interceptor (r : restResponseSTD D E)
    (h : InterceptHandler) (hh : r.ResponseSTD.interceptHandler = some h)
    (hw : r.onceFn.done = false) (hi : r.ResponseSTD.interceptOnceFn.done = false)
    (rest : List (Call D E)) (self : Ptr) :
    (r.calls self (Call.JSON :: rest)).2 =
        [Event.RestJSON { r.ResponseSTD with
            statusCode := if r.ResponseSTD.statusCode = 0 then 200
              else r.ResponseSTD.statusCode },
          Event.goHandler h r.ResponseSTD.request self] ∧
      interceptPrecedesWrite (r.calls self (Call.JSON :: rest)).2 = false := by
  have hev : (r.calls self (Call.JSON :: rest)).2 =
      [Event.RestJSON { r.ResponseSTD with
          statusCode := if r.ResponseSTD.statusCode = 0 then 200
            else r.ResponseSTD.statusCode },
        Event.goHandler h r.ResponseSTD.request self] := by
    rw [calls_JSON_first, JSON_snd]
    simp [writeEvents, interceptEvents, hw, hi, hh, defaulted, http.StatusOK]
  refine ⟨hev, ?_⟩
  rw [hev]
  rfl

/-- An instance with a bound interceptor: in `JSON(); Done(); JSON()` the write comes
first, the start of the handler second, and nothing follows. -/
theorem JSON_first_writes_before_interceptor_witness :
    ((blank (some ⟨7⟩)).calls 1 [Call.JSON, Call.Done, Call.JSON]).2.map Event.isWrite =
        [true, false] ∧
      interceptPrecedesWrite
        ((blank (some ⟨7⟩)).calls 1 [Call.JSON, Call.Done, Call.JSON]).2 = false :=
  have h := JSON_first_writes_before_interceptor (blank (some ⟨7⟩)) ⟨7⟩ rfl rfl rfl
    [Call.Done, Call.JSON] 1
  ⟨by rw [h.1]; rfl, h.2⟩

/-- C9 fails as stated: with a bound interceptor, `Done()` followed by `JSON()` starts
the handler in `Done()` and performs the transport write afterwards, in `JSON()`. -/
theorem Done_then_JSON_intercepts_before_write :
    interceptPrecedesWrite ((blank (some ⟨7⟩)).calls 1 [Call.Done, Call.JSON]).2 = true ∧
      (((blank (some ⟨7⟩)).calls 1 [Call.Done, Call.JSON]).2.map Event.isWrite) =
        [false, true] :=
  ⟨rfl, rfl⟩

/-! ## The view handed to the interceptor -/

/-- C10, as the code has it: the view handed to the interceptor is the address of
the builder itself, behind the getter-only interface, not a copy. After a terminal
operation on a builder with a bound interceptor and an unspent interceptor latch,
followed by setter calls `later`, the getters read through the view return what
the builder holds then: the argument of the most recent later call of the
corresponding setter, and the value held at finalization for a field no later
setter was called on. -/
theorem interceptor_view_is_the_builder (w : World D E) (p : Ptr) (r : restResponseSTD D E)
    (h : InterceptHandler) (hp : w.heap p = some r)
    (hh : r.ResponseSTD.interceptHandler = some h)
    (hi : r.ResponseSTD.interceptOnceFn.done = false)
    (t : Call D E) (ht : t.isTerminal = true)
    (later : List (Call D E)) (hl : ∀ c ∈ later, c.isSetter = true) :
    ∃ w1 w2, Ref.call p w t = some (none, w1) ∧
      handedViews w1.trace = handedViews w.trace ++ [p] ∧
      Ref.calls p w1 later = some w2 ∧
      Ref.GetMsg p w2 = some ((lastArg Call.msgArg later).getD r.GetMsg) ∧
      Ref.GetAnyCode p w2 = some ((lastArg Call.codeArg later).getD r.GetAnyCode) ∧
      Ref.GetCode p w2 = some (narrowed ((lastArg Call.codeArg later).getD r.GetAnyCode)) ∧
      Ref.GetData p w2 = some ((lastArg Call.dataArg later).getD r.GetData) ∧
      Ref.GetError p w2 = some ((lastArg Call.errorArg later).getD r.GetError) ∧
      Ref.GetStatusCode p w2 =
        some ((lastArg Call.statusCodeArg later).getD (defaulted r.GetStatusCode)) := by
  have hsetter : t.isSetter = false := by
    cases t <;> first | rfl | (simp [Call.isTerminal] at ht)
  have hviews : handedViews (r.call p t).2 = [p] := by
    cases t <;> first
      | (simp [Call.isTerminal] at ht; done)
      | (simp only [restResponseSTD.call, Done_snd, JSON_snd, writeEvents, interceptEvents,
          hi, hh]
         cases r.onceFn.done <;> simp [handedViews])
  have hstate : (r.call p t).1.GetMsg = r.GetMsg ∧ (r.call p t).1.GetAnyCode = r.GetAnyCode ∧
      (r.call p t).1.GetData = r.GetData ∧ (r.call p t).1.GetError = r.GetError ∧
      (r.call p t).1.GetStatusCode = defaulted r.GetStatusCode := by
    cases t <;> first
      | (simp [Call.isTerminal] at ht; done)
      | (simp only [restResponseSTD.call, Done_fst, JSON_fst]; exact ⟨rfl, rfl, rfl, rfl, rfl⟩)
  obtain ⟨hm, hc, hd, he, hs⟩ := hstate
  let w1 : World D E :=
    { heap := Function.update w.heap p (some (r.call p t).1)
      trace := w.trace ++ (r.call p t).2 }
  have hw1 : w1.heap p = some (r.call p t).1 := by simp [w1]
  refine ⟨w1,
    { heap := Function.update w1.heap p (some ((r.call p t).1.calls p later).1)
      trace := w1.trace ++ ((r.call p t).1.calls p later).2 },
    ?_, ?_, ?_, ?_, ?_, ?_, ?_, ?_, ?_⟩
  · rw [Ref.call_eq p w r hp t, hsetter]; rfl
  · show handedViews (w.trace ++ (r.call p t).2) = handedViews w.trace ++ [p]
    rw [← hviews]
    simp [handedViews, List.filterMap_append]
  · exact Ref.calls_eq p later w1 (r.call p t).1 hw1
  · simp only [Ref.GetMsg, Function.update_same, Option.map_some']
    rw [calls_get p restResponseSTD.GetMsg Call.msgArg (fun _ => True)
      (fun r c _ => call_GetMsg p r c) later _ (fun _ _ => trivial), hm]
  · simp only [Ref.GetAnyCode, Function.update_same, Option.map_some']
    rw [calls_get p restResponseSTD.GetAnyCode Call.codeArg (fun _ => True)
      (fun r c _ => call_GetAnyCode p r c) later _ (fun _ _ => trivial), hc]
  · simp only [Ref.GetCode, Function.update_same, Option.map_some']
    have hcode := calls_get p restResponseSTD.GetAnyCode Call.codeArg (fun _ => True)
      (fun r c _ => call_GetAnyCode p r c) later (r.call p t).1 (fun _ _ => trivial)
    rw [hc] at hcode
    rw [← hcode]
    unfold restResponseSTD.GetCode restResponseSTD.GetAnyCode narrowed
    cases ((r.call p t).1.calls p later).1.ResponseSTD.Code <;> rfl
  · simp only [Ref.GetData, Function.update_same, Option.map_some']
    rw [calls_get p restResponseSTD.GetData Call.dataArg (fun _ => True)
      (fun r c _ => call_GetData p r c) later _ (fun _ _ => trivial), hd]
  · simp only [Ref.GetError, Function.update_same, Option.map_some']
    rw [calls_get p restResponseSTD.GetError Call.errorArg (fun _ => True)
      (fun r c _ => call_GetError p r c) later _ (fun _ _ => trivial), he]
  · simp only [Ref.GetStatusCode, Function.update_same, Option.map_some']
    rw [calls_get p restResponseSTD.GetStatusCode Call.statusCodeArg
      (fun c => c.isSetter = true) (fun r c hc => call_GetStatusCode p r c hc) later _ hl, hs]

/-- An instance on the builder at address 1: after `JSON()` and a later `Msg("late")`
the view 1 reads the message "late" and the status 200. -/
theorem interceptor_view_is_the_builder_witness :
    ∃ w1 w2, Ref.call 1 (world1 (some ⟨7⟩)) Call.JSON = some (none, w1) ∧
      handedViews w1.trace = [1] ∧
      Ref.calls 1 w1 [Call.Msg "late"] = some w2 ∧
      Ref.GetMsg 1 w2 = some "late" ∧
      Ref.GetStatusCode 1 w2 = some 200 := by
  obtain ⟨w1, w2, h1, h2, h3, h4, -, -, -, -, h5⟩ :=
    interceptor_view_is_the_builder (world1 (some ⟨7⟩)) 1 (blank (some ⟨7⟩)) ⟨7⟩ rfl rfl rfl
      Call.JSON rfl [Call.Msg "late"] (by decide)
  exact ⟨w1, w2, h1, h2, h3, h4, h5⟩

/-- C10 fails as stated: the builder at address 1 is finalized by `JSON()` with the
message "final" and the interceptor is handed the view 1; after a later
`Msg("late")` on the builder, `GetMsg` through that view returns "late". -/
theorem view_reads_later_setter :
    (Ref.calls 1 (world1 (some ⟨7⟩)) [Call.Msg "final", Call.JSON]).map
        (fun w => (handedViews w.trace, Ref.GetMsg 1 w)) = some ([1], some "final") ∧
      (Ref.calls 1 (world1 (some ⟨7⟩)) [Call.Msg "final", Call.JSON, Call.Msg "late"]).map
        (fun w => (handedViews w.trace, Ref.GetMsg 1 w)) = some ([1], some "late") :=
  ⟨rfl, rfl⟩

end claims

end xresponse
